import Mathlib

/-!
Shallow embedding of the audiocut repository (an audio-waveform viewer):
`src/components/Waveform.tsx` (zoom, seeking, time formatting, engine
lifecycle, engine event handlers) and `src/components/UploadBox.tsx`
(file selection and validation).  JavaScript numbers are modelled as
rationals (`ℚ`), with an explicit marker type for the non-finite values
that `formatTime` must handle.  Strings are Lean `String`s.
-/

namespace Audiocut

/-! ## Constants from Waveform.tsx -/

/-- Lower zoom bound: `const MIN_PX_PER_SEC = 10`. -/
def MIN_PX_PER_SEC : ℚ := 10

/-- Upper zoom bound: `const MAX_PX_PER_SEC = 500`. -/
def MAX_PX_PER_SEC : ℚ := 500

/-- Wheel step: `const WHEEL_SCALE = 1.05`. -/
def WHEEL_SCALE : ℚ := 1.05

/-- Initial zoom density: `useState(80)`. -/
def initialPxPerSec : ℚ := 80

/-- JavaScript `Math.round` on the (nonnegative) values this program feeds
it: round half up, i.e. `⌊q + 1/2⌋`. -/
def jsRound (q : ℚ) : ℚ := ⌊q + 1/2⌋

/-! ## Zoom operations -/

/-- A wheel event as seen by `onWheel`: whether the modifier (Meta/Cmd) key
is held and the signed scroll amount `deltaY`. -/
structure WheelEvent where
  metaKey : Bool
  deltaY : ℚ

/-- The factor chosen inside `onWheel`:
`const factor = e.deltaY > 0 ? WHEEL_SCALE : 1 / WHEEL_SCALE`. -/
def wheelFactor (e : WheelEvent) : ℚ :=
  if 0 < e.deltaY then WHEEL_SCALE else 1 / WHEEL_SCALE

/-- The `setPxPerSec` updater inside `onWheel`:
`min(MAX_PX_PER_SEC, max(MIN_PX_PER_SEC, prev * factor))`. -/
def wheelNext (e : WheelEvent) (prev : ℚ) : ℚ :=
  min MAX_PX_PER_SEC (max MIN_PX_PER_SEC (prev * wheelFactor e))

/-- The whole `onWheel` handler.  Returns the new zoom density together with
whether `e.preventDefault()` was called.  When the modifier key is not held
the handler returns immediately: the density is unchanged and default
scrolling is not suppressed. -/
def onWheel (e : WheelEvent) (prev : ℚ) : ℚ × Bool :=
  if e.metaKey = false then (prev, false)
  else (wheelNext e prev, true)

/-- The `zoomIn` button handler:
`setPxPerSec((v) => Math.min(MAX_PX_PER_SEC, Math.round(v * WHEEL_SCALE)))`. -/
def zoomIn (v : ℚ) : ℚ :=
  min MAX_PX_PER_SEC (jsRound (v * WHEEL_SCALE))

/-- The `zoomOut` button handler:
`setPxPerSec((v) => Math.max(MIN_PX_PER_SEC, Math.round(v / WHEEL_SCALE)))`. -/
def zoomOut (v : ℚ) : ℚ :=
  max MIN_PX_PER_SEC (jsRound (v / WHEEL_SCALE))

/-- One user zoom action: an arbitrary wheel event (modifier held or not),
or a press of the + / − button. -/
inductive ZoomOp
  | wheel (e : WheelEvent)
  | btnIn
  | btnOut

/-- Apply one zoom action to the current density. -/
def applyZoomOp : ZoomOp → ℚ → ℚ
  | ZoomOp.wheel e, v => (onWheel e v).1
  | ZoomOp.btnIn, v => zoomIn v
  | ZoomOp.btnOut, v => zoomOut v

/-- The zoom density reached after a sequence of zoom actions, starting from
the initial density 80. -/
def runZoomOps (ops : List ZoomOp) : ℚ :=
  ops.foldl (fun v op => applyZoomOp op v) initialPxPerSec

/-! ## Helper lemmas about jsRound -/

lemma le_jsRound {n : ℤ} {q : ℚ} (h : (n : ℚ) ≤ q + 1/2) : (n : ℚ) ≤ jsRound q := by
  unfold jsRound
  exact_mod_cast Int.le_floor.mpr h

lemma jsRound_le {n : ℤ} {q : ℚ} (h : q + 1/2 < (n : ℚ) + 1) : jsRound q ≤ (n : ℚ) := by
  unfold jsRound
  have h1 : ⌊q + 1/2⌋ < n + 1 := by
    apply Int.floor_lt.mpr
    push_cast
    linarith
  exact_mod_cast Int.lt_add_one_iff.mp h1

lemma WHEEL_SCALE_eq : WHEEL_SCALE = 21/20 := by norm_num [WHEEL_SCALE]

/-- Any single zoom action keeps the density inside `[10, 500]`. -/
lemma applyZoomOp_bounds (op : ZoomOp) {v : ℚ} (h1 : 10 ≤ v) (h2 : v ≤ 500) :
    10 ≤ applyZoomOp op v ∧ applyZoomOp op v ≤ 500 := by
  cases op with
  | wheel e =>
    simp only [applyZoomOp, onWheel]
    by_cases hm : e.metaKey = false
    · simp [hm, h1, h2]
    · simp only [hm, if_false]
      unfold wheelNext MIN_PX_PER_SEC MAX_PX_PER_SEC
      constructor
      · exact le_min (by norm_num) (le_max_left _ _)
      · exact min_le_left _ _
  | btnIn =>
    simp only [applyZoomOp]
    unfold zoomIn MAX_PX_PER_SEC
    refine ⟨le_min (by norm_num) ?_, min_le_left _ _⟩
    rw [WHEEL_SCALE_eq]
    have : ((10 : ℤ) : ℚ) ≤ v * (21/20) + 1/2 := by push_cast; linarith
    exact_mod_cast le_jsRound this
  | btnOut =>
    simp only [applyZoomOp]
    unfold zoomOut MIN_PX_PER_SEC
    refine ⟨le_max_left _ _, max_le (by norm_num) ?_⟩
    rw [WHEEL_SCALE_eq]
    have hd : v / (21/20 : ℚ) = v * (20/21) := by ring
    rw [hd]
    have : v * (20/21 : ℚ) + 1/2 < ((500 : ℤ) : ℚ) + 1 := by push_cast; linarith
    exact_mod_cast jsRound_le this

lemma runZoomOps_aux (ops : List ZoomOp) :
    ∀ v : ℚ, 10 ≤ v → v ≤ 500 →
      10 ≤ ops.foldl (fun v op => applyZoomOp op v) v ∧
        ops.foldl (fun v op => applyZoomOp op v) v ≤ 500 := by
  induction ops with
  | nil => intro v h1 h2; exact ⟨h1, h2⟩
  | cons op rest ih =>
    intro v h1 h2
    have hb := applyZoomOp_bounds op h1 h2
    exact ih (applyZoomOp op v) hb.1 hb.2

/-- C1: For every sequence of zoom operations (wheel gesture steps, zoom-in
button presses, zoom-out button presses), starting from the initial density,
the resulting zoom density in pixels-per-second always lies in the closed
interval `[10, 500]`, no matter how extreme the requested factor or how many
steps are applied. -/
theorem zoomDensity_mem_bounds (ops : List ZoomOp) :
    10 ≤ runZoomOps ops ∧ runZoomOps ops ≤ 500 := by
  unfold runZoomOps
  exact runZoomOps_aux ops initialPxPerSec (by norm_num [initialPxPerSec])
    (by norm_num [initialPxPerSec])

/-- C6: For every wheel event: if the modifier key is not held the handler
changes no state and does not suppress default scrolling; if the modifier is
held the handler suppresses default scrolling (`preventDefault`) and
multiplies the zoom density by `1.05 = 21/20` (≈5% per step) when scrolling
forward (`deltaY > 0`, zoom in) and by `20/21` when scrolling backward
(zoom out), clamping the result to `[10, 500]`. -/
theorem onWheel_spec (e : WheelEvent) (prev : ℚ) :
    (e.metaKey = false → onWheel e prev = (prev, false)) ∧
    (e.metaKey = true →
      (onWheel e prev).2 = true ∧
      (onWheel e prev).1 =
        min 500 (max 10 (prev * (if 0 < e.deltaY then 21/20 else 20/21)))) := by
  constructor
  · intro hm
    simp [onWheel, hm]
  · intro hm
    simp only [onWheel, hm, Bool.true_eq_false, if_false]
    refine ⟨by trivial, ?_⟩
    unfold wheelNext wheelFactor MIN_PX_PER_SEC MAX_PX_PER_SEC
    by_cases hd : 0 < e.deltaY
    · simp [hd, WHEEL_SCALE_eq]
    · simp only [hd, if_false]
      rw [WHEEL_SCALE_eq]
      norm_num

/-- Witness for C6 at concrete events: no modifier at density 80 leaves
things untouched; modifier with `deltaY = 3` at density 80 prevents default
and yields `84`. -/
theorem onWheel_spec_witness :
    onWheel ⟨false, 3⟩ 80 = (80, false) ∧
    (onWheel ⟨true, 3⟩ 80).1 = 84 ∧ (onWheel ⟨true, 3⟩ 80).2 = true := by
  refine ⟨(onWheel_spec ⟨false, 3⟩ 80).1 rfl, ?_, ((onWheel_spec ⟨true, 3⟩ 80).2 rfl).1⟩
  rw [((onWheel_spec ⟨true, 3⟩ 80).2 rfl).2]
  norm_num

/-- C7 counterexample: the discrete (+ button) zoom path and the continuous
(wheel) zoom path do NOT compute the same update.  At density 81 the wheel
path yields `81 * 1.05 = 85.05` while the button path rounds to `85`. -/
theorem zoom_paths_differ :
    zoomIn 81 ≠ (onWheel ⟨true, 1⟩ 81).1 := by
  have h1 : zoomIn 81 = 85 := by
    unfold zoomIn jsRound MAX_PX_PER_SEC
    rw [WHEEL_SCALE_eq]
    norm_num
  have h2 : (onWheel ⟨true, 1⟩ 81).1 = 1701/20 := by
    simp only [onWheel, wheelNext, wheelFactor, MIN_PX_PER_SEC, MAX_PX_PER_SEC]
    rw [WHEEL_SCALE_eq]
    norm_num
  rw [h1, h2]
  norm_num

/-- C7 (amended): for every density in `[10, 500]`, the discrete (+/−
button) path equals the continuous (wheel) path followed by rounding to the
nearest integer (JS `Math.round`); both multiply by the same factor
(`1.05`, resp. `1/1.05`) and clamp to `[10, 500]`, but the button path
additionally rounds. -/
theorem zoom_paths_agree_up_to_rounding (v : ℚ) (h1 : 10 ≤ v) (h2 : v ≤ 500) :
    zoomIn v = jsRound ((onWheel ⟨true, 1⟩ v).1) ∧
    zoomOut v = jsRound ((onWheel ⟨true, -1⟩ v).1) := by
  constructor
  · simp only [onWheel, wheelNext, wheelFactor, MIN_PX_PER_SEC, MAX_PX_PER_SEC]
    norm_num
    rw [WHEEL_SCALE_eq]
    unfold zoomIn MAX_PX_PER_SEC
    rw [WHEEL_SCALE_eq]
    have hmax : max (10 : ℚ) (v * (21/20)) = v * (21/20) := by
      apply max_eq_right; linarith
    rw [hmax]
    rcases le_or_lt (v * (21/20)) 500 with hle | hlt
    · rw [min_eq_right hle, min_eq_right]
      have : v * (21/20 : ℚ) + 1/2 < ((500 : ℤ) : ℚ) + 1 := by push_cast; linarith
      exact_mod_cast jsRound_le this
    · rw [min_eq_left (le_of_lt hlt), min_eq_left]
      · unfold jsRound; norm_num
      · have : ((500 : ℤ) : ℚ) ≤ v * (21/20) + 1/2 := by push_cast; linarith
        exact_mod_cast le_jsRound this
  · simp only [onWheel, wheelNext, wheelFactor, MIN_PX_PER_SEC, MAX_PX_PER_SEC]
    norm_num
    rw [WHEEL_SCALE_eq]
    unfold zoomOut MIN_PX_PER_SEC
    rw [WHEEL_SCALE_eq]
    have hd : v / (21/20 : ℚ) = v * (20/21) := by ring
    have hinv : (21/20 : ℚ)⁻¹ = 20/21 := by norm_num
    rw [hd, hinv]
    have hmin : min (500 : ℚ) (max 10 (v * (20/21))) = max 10 (v * (20/21)) := by
      apply min_eq_right
      apply max_le (by norm_num)
      linarith
    rw [hmin]
    rcases le_or_lt (10 : ℚ) (v * (20/21)) with hle | hlt
    · rw [max_eq_right hle, max_eq_right]
      have : ((10 : ℤ) : ℚ) ≤ v * (20/21) + 1/2 := by push_cast; linarith
      exact_mod_cast le_jsRound this
    · rw [max_eq_left (le_of_lt hlt), max_eq_left]
      · unfold jsRound; norm_num
      · have : v * (20/21 : ℚ) + 1/2 < ((10 : ℤ) : ℚ) + 1 := by push_cast; linarith
        exact_mod_cast jsRound_le this

/-- Witness for C7's amended theorem at density 81. -/
theorem zoom_paths_agree_up_to_rounding_witness :
    zoomIn 81 = jsRound ((onWheel ⟨true, 1⟩ 81).1) ∧
    zoomOut 81 = jsRound ((onWheel ⟨true, -1⟩ 81).1) :=
  zoom_paths_agree_up_to_rounding 81 (by norm_num) (by norm_num)

/-! ## Time formatting (`formatTime` in Waveform.tsx) -/

/-- A JavaScript number as `formatTime` may receive it: a finite rational
or one of the non-finite values. -/
inductive JSNum
  | num (q : ℚ)
  | nan
  | posInf
  | negInf

/-- JavaScript `isFinite`. -/
def jsIsFinite : JSNum → Bool
  | JSNum.num _ => true
  | _ => false

/-- The normalisation step `if (!isFinite(t) || t < 0) t = 0;`.  (In JS,
`NaN < 0` is `false`; `NaN`, `±Infinity` are caught by `!isFinite`.) -/
def normalizeTime : JSNum → ℚ
  | JSNum.num q => if q < 0 then 0 else q
  | _ => 0

/-- The two fields computed by `formatTime`:
`m = Math.floor(t / 60)` and `s = Math.floor(t % 60)`.  For the
nonnegative `t` produced by normalisation, the JS remainder `t % 60`
equals `t - 60 * ⌊t / 60⌋`.  Both floors are nonnegative, so they are
taken as naturals. -/
def timeParts (t : JSNum) : ℕ × ℕ :=
  let q := normalizeTime t
  ((⌊q / 60⌋).toNat, (⌊q - 60 * ⌊q / 60⌋⌋).toNat)

/-- JavaScript `str.padStart(2, '0')`. -/
def padStart2 (str : String) : String :=
  if str.length < 2 then String.mk (List.replicate (2 - str.length) '0') ++ str
  else str

/-- The template `` `(dollar-m):(dollar-s)` `` of `formatTime`: minutes
unpadded, seconds padded to two digits. -/
def formatTime (t : JSNum) : String :=
  toString (timeParts t).1 ++ ":" ++ padStart2 (toString (timeParts t).2)

lemma normalizeTime_nonneg (t : JSNum) : 0 ≤ normalizeTime t := by
  cases t with
  | num q =>
    simp only [normalizeTime]
    split
    · exact le_refl 0
    · linarith [not_lt.mp (by assumption : ¬ q < 0)]
  | nan => exact le_refl 0
  | posInf => exact le_refl 0
  | negInf => exact le_refl 0

/-- Evaluating `timeParts` on an exact minutes/seconds decomposition. -/
lemma timeParts_num_nat (m s : ℕ) (hs : s < 60) :
    timeParts (JSNum.num ((60 * m + s : ℕ) : ℚ)) = (m, s) := by
  have hq : normalizeTime (JSNum.num ((60 * m + s : ℕ) : ℚ)) = ((60 * m + s : ℕ) : ℚ) := by
    simp only [normalizeTime]
    rw [if_neg (not_lt.mpr (Nat.cast_nonneg _))]
  have hdiv : ((60 * m + s : ℕ) : ℚ) / 60 = (m : ℚ) + (s : ℚ) / 60 := by
    push_cast
    ring
  have hfrac : ⌊((s : ℚ)) / 60⌋ = 0 := by
    rw [Int.floor_eq_zero_iff]
    constructor
    · positivity
    · rw [div_lt_one (by norm_num : (0:ℚ) < 60)]
      exact_mod_cast hs
  have hfloor : ⌊((60 * m + s : ℕ) : ℚ) / 60⌋ = (m : ℤ) := by
    rw [hdiv, Int.floor_nat_add, hfrac, add_zero]
  have hsub : ((60 * m + s : ℕ) : ℚ) - 60 * ((m : ℤ) : ℚ) = (s : ℚ) := by
    push_cast
    ring
  simp only [timeParts, hq, hfloor]
  rw [hsub]
  rw [Int.floor_natCast]
  simp

/-- The seconds field is always at most 59. -/
lemma timeParts_snd_lt (t : JSNum) : (timeParts t).2 < 60 := by
  have hlt : normalizeTime t / 60 < ⌊normalizeTime t / 60⌋ + 1 := Int.lt_floor_add_one _
  have hr : normalizeTime t - 60 * (⌊normalizeTime t / 60⌋ : ℚ) < 60 := by
    have h60 : (0 : ℚ) < 60 := by norm_num
    rw [div_lt_iff₀ h60] at hlt
    linarith
  have hfl : ⌊normalizeTime t - 60 * (⌊normalizeTime t / 60⌋ : ℚ)⌋ < 60 := by
    apply Int.floor_lt.mpr
    exact_mod_cast hr
  simp only [timeParts]
  omega

/-- The numeric equivalent of `formatTime`'s output re-formats to the same
string. -/
lemma timeParts_refmt (t : JSNum) :
    timeParts (JSNum.num ((60 * (timeParts t).1 + (timeParts t).2 : ℕ) : ℚ)) = timeParts t := by
  rw [timeParts_num_nat (timeParts t).1 (timeParts t).2 (timeParts_snd_lt t)]

lemma padStart2_len_two : ∀ n : ℕ, n < 60 → (padStart2 (toString n)).length = 2 := by
  decide

/-- C5: `formatTime` normalises negative or non-finite inputs to zero and
formats as minutes (unpadded) and seconds (zero-padded to two digits):
`formatTime (-5) = formatTime NaN = formatTime 0 = "0:00"`,
`formatTime 75 = "1:15"`, and re-formatting the numeric equivalent
`60 * minutes + seconds` of its own output returns the same string. -/
theorem formatTime_spec (t : JSNum) :
    (∀ q : ℚ, q < 0 → formatTime (JSNum.num q) = "0:00") ∧
    (jsIsFinite t = false → formatTime t = "0:00") ∧
    formatTime (JSNum.num (-5)) = "0:00" ∧
    formatTime JSNum.nan = "0:00" ∧
    formatTime (JSNum.num 0) = "0:00" ∧
    formatTime (JSNum.num 75) = "1:15" ∧
    (padStart2 (toString (timeParts t).2)).length = 2 ∧
    formatTime (JSNum.num ((60 * (timeParts t).1 + (timeParts t).2 : ℕ) : ℚ)) = formatTime t := by
  have hzero : ∀ q : ℚ, q < 0 → formatTime (JSNum.num q) = "0:00" := by
    intro q hq
    have h1 : timeParts (JSNum.num q) = (0, 0) := by
      simp [timeParts, normalizeTime, hq]
    rw [formatTime, h1]
    decide
  have hnf : jsIsFinite t = false → formatTime t = "0:00" := by
    intro hf
    have h1 : timeParts t = (0, 0) := by
      cases t with
      | num q => simp [jsIsFinite] at hf
      | nan => simp [timeParts, normalizeTime]
      | posInf => simp [timeParts, normalizeTime]
      | negInf => simp [timeParts, normalizeTime]
    rw [formatTime, h1]
    decide
  refine ⟨hzero, hnf, hzero (-5) (by norm_num), ?_, ?_, ?_, ?_, ?_⟩
  · have h1 : timeParts JSNum.nan = (0, 0) := by
      simp [timeParts, normalizeTime]
    rw [formatTime, h1]
    decide
  · have h1 : timeParts (JSNum.num 0) = (0, 0) := by
      simp [timeParts, normalizeTime]
    rw [formatTime, h1]
    decide
  · have h1 : timeParts (JSNum.num 75) = (1, 15) := by
      norm_num [timeParts, normalizeTime]
      decide
    rw [formatTime, h1]
    decide
  · exact padStart2_len_two _ (timeParts_snd_lt t)
  · rw [formatTime, formatTime, timeParts_refmt]

/-- Witness for C5 at concrete inputs. -/
theorem formatTime_spec_witness :
    formatTime (JSNum.num (-7)) = "0:00" ∧ formatTime JSNum.posInf = "0:00" :=
  ⟨(formatTime_spec JSNum.nan).1 (-7) (by norm_num),
    (formatTime_spec JSNum.posInf).2.1 rfl⟩

/-- C9: for every finite input of at least 3600 seconds the minutes field
exceeds 59 — there is no hours component — and in particular
`formatTime 3675 = "61:15"`. -/
theorem formatTime_no_hours (q : ℚ) (h : 3600 ≤ q) :
    59 < (timeParts (JSNum.num q)).1 ∧ formatTime (JSNum.num 3675) = "61:15" := by
  constructor
  · have hq : normalizeTime (JSNum.num q) = q := by
      simp only [normalizeTime]
      rw [if_neg]
      linarith
    have hfl : (60 : ℤ) ≤ ⌊q / 60⌋ := by
      apply Int.le_floor.mpr
      rw [le_div_iff₀ (by norm_num : (0:ℚ) < 60)]
      push_cast
      linarith
    simp only [timeParts, hq]
    omega
  · have h1 : timeParts (JSNum.num 3675) = (61, 15) := by
      norm_num [timeParts, normalizeTime]
      decide
    rw [formatTime, h1]
    decide

/-- Witness for C9 at 3675 seconds. -/
theorem formatTime_no_hours_witness :
    59 < (timeParts (JSNum.num 3675)).1 ∧ formatTime (JSNum.num 3675) = "61:15" :=
  formatTime_no_hours 3675 (by norm_num)

/-! ## Seeking (the `onKey` keyboard handler in Waveform.tsx) -/

/-- The slice of engine state the keyboard handler touches: the readiness
flag and the engine's reported duration and current time.  Before the
engine's "ready" signal both reported times are `0`. -/
structure EngineState where
  ready : Bool
  duration : ℚ
  current : ℚ

/-- Relative seeking, from the ArrowRight / ArrowLeft branches of `onKey`.
The handler starts with `if (!ws) return`, so a missing engine is a no-op.
A forward seek (ArrowRight with step `delta`) runs
`ws.setTime(Math.min(ws.getDuration(), ws.getCurrentTime() + delta))`;
a backward seek (ArrowLeft) runs
`ws.setTime(Math.max(0, ws.getCurrentTime() - delta))`, i.e. with a signed
`delta` the target is `max 0 (current + delta)`. -/
def seekRelative (delta : ℚ) : Option EngineState → Option EngineState
  | none => none
  | some s =>
    if 0 ≤ delta then some { s with current := min s.duration (s.current + delta) }
    else some { s with current := max 0 (s.current + delta) }

/-- C4: for every seek delta, `seekRelative` clamps the resulting position
to `[0, duration]`; once duration is known (and at most 1000 here, as in
the spec's example) a delta of `-1000` yields position `0` and a delta of
`+1000` yields position `duration`; and `seekRelative` is a no-op in every
state before Ready: with no engine it returns `none` unchanged, and on a
not-yet-ready engine (which reports duration `0` and current time `0`) it
leaves the state exactly as it was. -/
theorem seekRelative_clamps (s : EngineState) (delta : ℚ)
    (h0 : 0 ≤ s.current) (h1 : s.current ≤ s.duration) :
    (∃ s2 : EngineState, seekRelative delta (some s) = some s2 ∧
      s2.duration = s.duration ∧ 0 ≤ s2.current ∧ s2.current ≤ s2.duration) ∧
    (s.duration ≤ 1000 →
      seekRelative (-1000) (some s) = some { s with current := 0 } ∧
      seekRelative 1000 (some s) = some { s with current := s.duration }) ∧
    seekRelative delta none = none ∧
    (s.ready = false → s.duration = 0 → s.current = 0 →
      seekRelative delta (some s) = some s) := by
  obtain ⟨r, d, c⟩ := s
  simp only at h0 h1
  refine ⟨?_, ?_, rfl, ?_⟩
  · by_cases hd : 0 ≤ delta
    · refine ⟨⟨r, d, min d (c + delta)⟩, by simp [seekRelative, hd], rfl, ?_, ?_⟩
      · exact le_min (h0.trans h1) (by linarith)
      · exact min_le_left _ _
    · refine ⟨⟨r, d, max 0 (c + delta)⟩, by simp [seekRelative, hd], rfl, ?_, ?_⟩
      · exact le_max_left _ _
      · exact max_le (h0.trans h1) (by linarith)
  · intro hdur
    have hdur2 : d ≤ 1000 := hdur
    constructor
    · norm_num [seekRelative]
      linarith
    · norm_num [seekRelative]
      linarith
  · intro _ hdur hcur
    subst hdur
    subst hcur
    by_cases hd : 0 ≤ delta
    · simp [seekRelative, hd, min_eq_left hd]
    · simp [seekRelative, hd, max_eq_left (le_of_lt (not_le.mp hd))]

/-- Witness for C4: on a ready engine with duration 42 at position 7, the
spec's two extreme deltas clamp to 0 and to the duration, and on a
not-yet-ready engine a seek changes nothing. -/
theorem seekRelative_clamps_witness :
    seekRelative (-1000) (some ⟨true, 42, 7⟩) = some ⟨true, 42, 0⟩ ∧
    seekRelative 1000 (some ⟨true, 42, 7⟩) = some ⟨true, 42, 42⟩ ∧
    seekRelative 5 (some ⟨false, 0, 0⟩) = some ⟨false, 0, 0⟩ := by
  have h := seekRelative_clamps ⟨true, 42, 7⟩ 3 (by norm_num) (by norm_num)
  have h2 := h.2.1 (by norm_num)
  have hload := (seekRelative_clamps ⟨false, 0, 0⟩ 5 (by norm_num) (by norm_num)).2.2.2
    rfl rfl rfl
  exact ⟨h2.1, h2.2, hload⟩

/-! ## Engine lifecycle (the `useEffect` on `[file]` in Waveform.tsx) -/

/-- Lifecycle state of one Waveform controller: a counter producing fresh
engine ids, the list of engine instances that have been created and not yet
destroyed, and `wavesurferRef.current` (which keeps pointing at the last
instance even after it was destroyed, exactly as the mutable ref does). -/
structure CState where
  nextId : ℕ
  live : List ℕ
  wavesurferRef : Option ℕ

/-- Before any file is selected: no engine was ever created. -/
def initState : CState := ⟨0, [], none⟩

/-- Destroy the instance the ref points at
(`wavesurferRef.current?.destroy()` / the captured `ws.destroy()`):
remove it from the live list; destroying an already-destroyed instance is
a no-op (`erase` of an absent id). -/
def destroyRef (s : CState) : CState :=
  match s.wavesurferRef with
  | some i => { s with live := s.live.erase i }
  | none => s

/-- The body of the `useEffect` that runs when `file` changes: first
`wavesurferRef.current?.destroy()`, then `WaveSurfer.create(options)` and
`wavesurferRef.current = ws`. -/
def fileEffect (s : CState) : CState :=
  let s1 := destroyRef s
  { nextId := s1.nextId + 1, live := s1.live ++ [s1.nextId],
    wavesurferRef := some s1.nextId }

/-- The effect's cleanup, `return () => ws.destroy()`: destroys the
instance that effect run created (which is the one the ref points at). -/
def cleanupEffect (s : CState) : CState := destroyRef s

/-- The two lifecycle events React delivers to this effect: a change of the
`file` dependency (previous cleanup runs, then the effect body), and
unmount (cleanup only). -/
inductive CEvent
  | fileChange
  | unmount

/-- React's ordering: on a dependency change the previous effect's cleanup
runs before the new effect body; on unmount only the cleanup runs. -/
def applyEvent : CEvent → CState → CState
  | CEvent.fileChange, s => fileEffect (cleanupEffect s)
  | CEvent.unmount, s => cleanupEffect s

/-- All reachable controller lifecycle states. -/
def runEvents (evs : List CEvent) : CState :=
  evs.foldl (fun s e => applyEvent e s) initState

/-- The lifecycle invariant: at most one live instance, and any live
instance is the one the ref points at. -/
def EngineInv (s : CState) : Prop :=
  s.live.length ≤ 1 ∧ ∀ x ∈ s.live, s.wavesurferRef = some x

lemma destroyRef_live_nil {s : CState} (h : EngineInv s) :
    (destroyRef s).live = [] := by
  obtain ⟨hlen, href⟩ := h
  cases hw : s.wavesurferRef with
  | none =>
    have hnil : s.live = [] := by
      cases hl : s.live with
      | nil => rfl
      | cons a t =>
        have := href a (by rw [hl]; exact List.mem_cons_self a t)
        rw [hw] at this
        exact absurd this (by simp)
    simp [destroyRef, hw, hnil]
  | some i =>
    simp only [destroyRef, hw]
    cases hl : s.live with
    | nil => simp
    | cons a t =>
      have ha : a = i := by
        have := href a (by rw [hl]; exact List.mem_cons_self a t)
        rw [hw] at this
        exact (Option.some_inj.mp this).symm
      have ht : t = [] := by
        rw [hl] at hlen
        simp only [List.length_cons] at hlen
        exact List.eq_nil_of_length_eq_zero (by omega)
      subst ha
      subst ht
      simp

lemma fileEffect_inv {s : CState} (h : EngineInv s) : EngineInv (fileEffect s) := by
  have hnil : (destroyRef s).live = [] := destroyRef_live_nil h
  have hlive : (fileEffect s).live = [(destroyRef s).nextId] := by
    show (destroyRef s).live ++ [(destroyRef s).nextId] = _
    rw [hnil]
    rfl
  have href : (fileEffect s).wavesurferRef = some (destroyRef s).nextId := rfl
  rw [EngineInv, hlive, href]
  refine ⟨by simp, ?_⟩
  intro x hx
  simp at hx
  simp [hx]

lemma applyEvent_inv (e : CEvent) {s : CState} (h : EngineInv s) :
    EngineInv (applyEvent e s) := by
  have hclean : EngineInv (cleanupEffect s) := by
    unfold cleanupEffect
    have hnil : (destroyRef s).live = [] := destroyRef_live_nil h
    rw [EngineInv, hnil]
    exact ⟨by simp, by simp⟩
  cases e with
  | fileChange => exact fileEffect_inv hclean
  | unmount => exact hclean

lemma runEvents_inv_aux (evs : List CEvent) :
    ∀ s : CState, EngineInv s →
      EngineInv (evs.foldl (fun s e => applyEvent e s) s) := by
  induction evs with
  | nil => intro s h; exact h
  | cons e rest ih => intro s h; exact ih _ (applyEvent_inv e h)

lemma runEvents_inv (evs : List CEvent) : EngineInv (runEvents evs) :=
  runEvents_inv_aux evs initState ⟨by simp [initState], by simp [initState]⟩

/-- C3: in every reachable controller state at most one live engine
instance exists, and whenever a new file arrives, at the moment just after
the old instance is destroyed (the previous effect's cleanup followed by
the `wavesurferRef.current?.destroy()` at the top of the new effect body)
and just before `WaveSurfer.create` runs, no engine instance is live: the
old engine is always destroyed before the new one is created. -/
theorem engine_unique_live (evs : List CEvent) :
    (runEvents evs).live.length ≤ 1 ∧
    (destroyRef (cleanupEffect (runEvents evs))).live = [] := by
  have h := runEvents_inv evs
  refine ⟨h.1, ?_⟩
  have hclean : EngineInv (cleanupEffect (runEvents evs)) := by
    unfold cleanupEffect
    have hnil := destroyRef_live_nil h
    rw [EngineInv, hnil]
    exact ⟨by simp, by simp⟩
  exact destroyRef_live_nil hclean

/-! ## Engine event subscriptions (`ws.on(...)` in Waveform.tsx) -/

/-- The view state the engine callbacks may touch. -/
structure UIState where
  ready : Bool
  current : ℚ
  duration : ℚ
  pxPerSec : ℚ

/-- The three engine signals the controller subscribes to. -/
inductive WSEvent
  | readyEv (dur : ℚ)
  | timeupdate (t : ℚ)
  | errorEv (msg : String)

/-- The three `ws.on` handlers: "ready" sets the ready flag, captures the
duration and resets the position; "timeupdate" stores the reported time;
"error" runs `console.error('WaveSurfer error:', e)` — it only appends a
diagnostic log entry. -/
def handleWSEvent : WSEvent → UIState → List String → UIState × List String
  | WSEvent.readyEv d, s, logs => ({ s with ready := true, duration := d, current := 0 }, logs)
  | WSEvent.timeupdate t, s, logs => ({ s with current := t }, logs)
  | WSEvent.errorEv m, s, logs => (s, logs ++ ["WaveSurfer error: " ++ m])

/-- C8: for every engine "error" signal, in any state (Loading or Ready,
i.e. any value of the ready flag, position, duration and zoom), the handler
only logs diagnostic information: the entire playback/zoom state is
returned unchanged — no retry, no reset, no engine interaction — and the
log gains exactly the diagnostic entry. -/
theorem errorHandler_only_logs (s : UIState) (logs : List String) (m : String) :
    handleWSEvent (WSEvent.errorEv m) s logs = (s, logs ++ ["WaveSurfer error: " ++ m]) :=
  rfl

/-! ## File selection (`handleChange` in UploadBox.tsx) -/

/-- A candidate file as the change handler sees it: a display name and a
declared MIME type string. -/
structure JSFile where
  name : String
  type : String

/-- JavaScript `String.prototype.startsWith`: the second string is a
prefix of the first. -/
def jsStartsWith (s pre : String) : Bool := pre.data.isPrefixOf s.data

/-- The message passed to `alert` for a non-audio selection. -/
def audioWarning : String := "Please choose an audio file (audio/*)."

/-- The `handleChange` handler of UploadBox: given `e.target.files` (null
or a list) and the currently held file, it returns the new held file and
the warnings surfaced.  `if (!e.target.files || e.target.files.length === 0)
return;` then `const f = e.target.files[0]`, then
`if (!f.type.startsWith('audio/')) { alert(...); return; }` and finally
`setFile(f)`. -/
def handleChange (files : Option (List JSFile)) (file : Option JSFile) :
    Option JSFile × List String :=
  match files with
  | none => (file, [])
  | some [] => (file, [])
  | some (f :: _) =>
    if jsStartsWith f.type "audio/" = false then (file, [audioWarning])
    else (some f, [])

/-- C2: for every candidate file whose media type does not start with
`"audio/"`, `handleChange` leaves the currently held file unchanged
(including when it is `none`) and surfaces the user-visible warning. -/
theorem handleChange_rejects_nonaudio (file : Option JSFile) (f : JSFile)
    (rest : List JSFile) (h : jsStartsWith f.type "audio/" = false) :
    handleChange (some (f :: rest)) file = (file, [audioWarning]) := by
  simp [handleChange, h]

/-- Witness for C2: rejecting `photo.png` (type `image/png`) with no file
previously held keeps the held file `none` and surfaces the warning. -/
theorem handleChange_rejects_nonaudio_witness :
    handleChange (some [⟨"photo.png", "image/png"⟩]) none = (none, [audioWarning]) :=
  handleChange_rejects_nonaudio none ⟨"photo.png", "image/png"⟩ [] (by decide)

/-- C10: when the change handler fires with a null or empty file list (the
chooser was cancelled), it returns without any state change and without
surfacing a warning: the currently held file is retained. -/
theorem handleChange_noop_empty (file : Option JSFile) :
    handleChange none file = (file, []) ∧ handleChange (some []) file = (file, []) :=
  ⟨rfl, rfl⟩

end Audiocut
